import Mathlib

/-!
# Verification of the percona-everest-cli command core

A shallow embedding, in Lean 4, of the command orchestration and
payload-translation logic of the `percona-everest-cli` repository:

* the deletion gate (`pkg/delete/mysql.go`, `MySQL.Run`),
* the provisioning payload builder (`package provision`, `MySQL.Run`,
  `prepareBody`, `convertPayload`),
* the version resolver (`package list`, `Versions.Run`, `parseVersions`,
  `checkIfSkip`, `VersionsList.String`),
* the credential reset pipeline (`pkg/password/reset.go`, `Reset.Run`).

External collaborators (the Everest control-plane client, the Kubernetes
cluster-access client, the interactive confirmation prompt, the random
password generator and the PBKDF2 key-derivation primitive) are passed in
as explicit function arguments, so theorems quantify over every possible
collaborator behaviour.  External library routines whose behaviour the
claims depend on (the Kubernetes quantity grammar and the semantic-version
parser) are modelled concretely from the specification and are marked as
such in their doc comments.  Errors are modelled as their message strings.
-/

deriving instance DecidableEq for Except

namespace Everest

/-- `errors.Wrap err msg` from `github.com/pkg/errors`: the wrapped error's
message is the annotation, a colon and a space, then the original message. -/
def wrapErr (msg e : String) : String := msg ++ ": " ++ e

/-- `errors.Join(err, errors.New msg)` from the Go standard library: the
joined error's message is the two messages separated by a newline. -/
def joinErr (e msg : String) : String := e ++ "\n" ++ msg

/-- Numeric value of a digit string. -/
def digitsVal (l : List Char) : Nat :=
  l.foldl (fun acc c => acc * 10 + (c.toNat - 48)) 0

/-- The bytes of a string (`[]byte(s)` in Go; the strings involved are
ASCII, where UTF-8 bytes and code points coincide). -/
def strBytes (s : String) : List Nat := s.data.map Char.toNat

/-! ## Deletion gate (`pkg/delete/mysql.go`) -/

namespace Delete

/-- `delete.MySQLConfig`: configuration for the delete command. -/
structure MySQLConfig where
  name : String
  kubernetesID : String
  everestEndpoint : String
  force : Bool

/-- A request issued to the Everest control-plane client by the delete
command. -/
inductive Call where
  | deleteDBCluster (kubernetesID : String) (name : String)
deriving DecidableEq

/-- `delete.MySQL.Run`.  `ask` models the answer of the interactive
`survey.AskOne` confirmation prompt (an error, or the boolean the operator
chose); `client` models `everestClient.DeleteDBCluster`.  The result pairs
the returned error (if any) with the list of control-plane calls issued. -/
def Run (ask : Except String Bool) (client : String → String → Except String Unit)
    (m : MySQLConfig) : Except String Unit × List Call :=
  let doDelete : Except String Unit × List Call :=
    match client m.kubernetesID m.name with
    | .error e => (.error e, [.deleteDBCluster m.kubernetesID m.name])
    | .ok _ => (.ok (), [.deleteDBCluster m.kubernetesID m.name])
  if !m.force then
    match ask with
    | .error e => (.error e, [])
    | .ok prompt =>
      if !prompt then (.ok (), [])
      else doDelete
  else doDelete

end Delete

/-! ## Provisioning payload builder (`package provision`) -/

namespace Provision

/-- A parsed resource quantity.
Modelled from the spec: quantity strings are an integer optionally followed
by a binary/SI suffix; the parsed value keeps the numeric part and the
suffix. -/
structure Quantity where
  value : Nat
  suffix : String
deriving DecidableEq

/-- The suffixes of the quantity grammar.
Modelled from the spec: binary suffixes (`Ki`, `Mi`, `Gi`, ...) and SI
suffixes (`m`, `k`, `M`, `G`, ...); the empty suffix is a bare integer. -/
def quantitySuffixes : List String :=
  ["", "Ki", "Mi", "Gi", "Ti", "Pi", "Ei", "n", "u", "m", "k", "M", "G", "T", "P", "E"]

/-- Modelled from the spec: `resource.ParseQuantity` of
`k8s.io/apimachinery` restricted to the grammar the spec gives — a
non-empty run of digits followed by an optional binary/SI suffix; anything
else fails to parse. -/
def specQuantityParse (s : String) : Except String Quantity :=
  let cs := s.data
  let digits := cs.takeWhile Char.isDigit
  let rest := cs.dropWhile Char.isDigit
  if digits.isEmpty then
    .error ("unable to parse quantity " ++ s)
  else if quantitySuffixes.contains (String.mk rest) then
    .ok ⟨digitsVal digits, String.mk rest⟩
  else
    .error ("unable to parse quantity suffix of " ++ s)

/-- `int32(n)`: Go's wrapping conversion of an `int` to an `int32`. -/
def toInt32 (n : Int) : Int := (n + 2 ^ 31) % 2 ^ 32 - 2 ^ 31

/-- `provision.MySQLConfig`: configuration for the provision command. -/
structure MySQLConfig where
  name : String
  kubernetesID : String
  everestEndpoint : String
  dbVersion : String
  nodes : Int
  cpu : String
  memory : String
  disk : String
  externalAccess : Bool

/-- `everestv1alpha.Resources`. -/
structure Resources where
  cpu : Quantity
  memory : Quantity
deriving DecidableEq

/-- `everestv1alpha.Storage`. -/
structure Storage where
  size : Quantity
deriving DecidableEq

/-- `everestv1alpha.Engine`. -/
structure Engine where
  type : String
  replicas : Int
  version : String
  storage : Storage
  resources : Resources
deriving DecidableEq

/-- `everestv1alpha.Expose`. -/
structure Expose where
  type : String
deriving DecidableEq

/-- `everestv1alpha.Proxy` (`Replicas` is a `*int32` in the source, hence
an `Option`). -/
structure Proxy where
  type : String
  replicas : Option Int
  expose : Expose
deriving DecidableEq

/-- `everestv1alpha.DatabaseClusterSpec`. -/
structure DatabaseClusterSpec where
  engine : Engine
  proxy : Proxy
deriving DecidableEq

/-- `everestv1alpha.DatabaseCluster` (`TypeMeta` and the object name
inlined). -/
structure DatabaseCluster where
  apiVersion : String
  kind : String
  name : String
  spec : DatabaseClusterSpec
deriving DecidableEq

/-- `everestv1alpha.DatabaseEnginePXC`. -/
def DatabaseEnginePXC : String := "pxc"

/-- `everestv1alpha.ProxyTypeHAProxy`. -/
def ProxyTypeHAProxy : String := "haproxy"

/-- `everestv1alpha.ExposeTypeInternal`. -/
def ExposeTypeInternal : String := "internal"

/-- `everestv1alpha.ExposeTypeExternal`. -/
def ExposeTypeExternal : String := "external"

/-- Modelled from the spec: the wire schema `client.DatabaseCluster` of the
control-plane client.  The JSON round-trip of `convertPayload` keeps
exactly the fields present in both schemas (the object name and the
cluster specification); fields absent from the wire schema are dropped. -/
structure WireDatabaseCluster where
  name : String
  spec : DatabaseClusterSpec
deriving DecidableEq

/-- `provision.MySQL.convertPayload`: serialize the structured payload to
JSON and deserialize into the wire type.  Modelled from the spec: on the
payloads `prepareBody` builds, marshalling cannot fail and the round-trip
keeps the overlapping fields. -/
def convertPayload (payload : DatabaseCluster) : Except String WireDatabaseCluster :=
  .ok { name := payload.name, spec := payload.spec }

/-- `provision.MySQL.prepareBody`, parameterised by the quantity parser
`pq` (the external `resource.ParseQuantity`). -/
def prepareBody (pq : String → Except String Quantity) (m : MySQLConfig) :
    Except String WireDatabaseCluster :=
  match pq m.cpu with
  | .error e => .error (wrapErr "cannot parse cpu" e)
  | .ok cpu =>
  match pq m.memory with
  | .error e => .error (wrapErr "cannot parse memory" e)
  | .ok memory =>
  match pq m.disk with
  | .error e => .error (wrapErr "cannot parse disk storage" e)
  | .ok disk =>
  let replicas := toInt32 m.nodes
  let version := if m.dbVersion = "latest" then "" else m.dbVersion
  let payload : DatabaseCluster :=
    { apiVersion := "everest.percona.com/v1alpha1"
      kind := "DatabaseCluster"
      name := m.name
      spec :=
        { engine :=
            { type := DatabaseEnginePXC
              replicas := replicas
              version := version
              storage := { size := disk }
              resources := { cpu := cpu, memory := memory } }
          proxy :=
            { type := ProxyTypeHAProxy
              replicas := some replicas
              expose := { type := ExposeTypeInternal } } } }
  let payload :=
    if m.externalAccess then
      { payload with
        spec := { payload.spec with
                  proxy := { payload.spec.proxy with
                             expose := { type := ExposeTypeExternal } } } }
    else payload
  convertPayload payload

/-- A request issued to the Everest control-plane client by the provision
command. -/
inductive Call where
  | createDBCluster (kubernetesID : String) (body : WireDatabaseCluster)
deriving DecidableEq

/-- `provision.MySQL.Run`.  `pq` models `resource.ParseQuantity`; `client`
models `everestClient.CreateDBCluster`.  The result pairs the returned
error (if any) with the list of control-plane calls issued. -/
def Run (pq : String → Except String Quantity)
    (client : String → WireDatabaseCluster → Except String Unit)
    (m : MySQLConfig) : Except String Unit × List Call :=
  match prepareBody pq m with
  | .error e => (.error e, [])
  | .ok body =>
    match client m.kubernetesID body with
    | .error e => (.error e, [.createDBCluster m.kubernetesID body])
    | .ok _ => (.ok (), [.createDBCluster m.kubernetesID body])

end Provision

/-! ## Credential reset pipeline (`pkg/password/reset.go`) -/

namespace Password

/-- `password.ResetConfig` (`targetNamespace` is the `Namespace` field). -/
structure ResetConfig where
  kubeconfigPath : String
  targetNamespace : String

/-- The namespace object returned by `kubeClient.GetNamespace`; only its
`UID` is read. -/
structure NamespaceObj where
  uid : String

/-- `corev1.Secret` (the fields `Reset.Run` sets; `inNamespace` is the
object's `Namespace`, `data` maps each key to a byte string). -/
structure Secret where
  apiVersion : String
  kind : String
  name : String
  inNamespace : String
  secretType : String
  data : List (String × List Nat)
deriving DecidableEq

/-- `password.passwordSecretName`. -/
def passwordSecretName : String := "everest-password"

/-- `password.ResetResponse`. -/
structure ResetResponse where
  password : String
deriving DecidableEq

/-- `password.Reset.Run`.  `getNamespace` models
`kubeClient.GetNamespace`; `newPassword` models the outcome of
`uniuri.NewLen 128` (the 128-character random plaintext); `pbkdf2Key`
models the external `pbkdf2.Key` primitive over SHA-256, taking the
password, the salt, the iteration count and the output length in bytes;
`setSecret` models `kubeClient.SetSecret` (`none` is success).  The result
pairs the response or error with the list of secrets written. -/
def Run (getNamespace : String → Except String NamespaceObj)
    (newPassword : String)
    (pbkdf2Key : String → String → Nat → Nat → List Nat)
    (setSecret : Secret → Option String)
    (r : ResetConfig) : Except String ResetResponse × List Secret :=
  match getNamespace r.targetNamespace with
  | .error e => (.error (joinErr e "could not get namespace from Kubernetes"), [])
  | .ok ns =>
    let hash := pbkdf2Key newPassword ns.uid 4096 32
    let secret : Secret :=
      { apiVersion := "v1"
        kind := "Secret"
        name := passwordSecretName
        inNamespace := r.targetNamespace
        secretType := "Opaque"
        data := [("password", hash)] }
    match setSecret secret with
    | some e => (.error (joinErr e "could not update password in Kubernetes"), [secret])
    | none => (.ok { password := newPassword }, [secret])

end Password

/-! ## Version resolver (`package list`) -/

namespace ListVersions

/-- Split a character list at every occurrence of `c` (the splitter of
`strings.SplitN`-style semantics: `n + 1` segments for `n` separators). -/
def splitOnChar (c : Char) : List Char → List (List Char)
  | [] => [[]]
  | x :: xs =>
    let r := splitOnChar c xs
    if x = c then [] :: r
    else
      match r with
      | [] => [[x]]
      | y :: ys => (x :: y) :: ys

/-- Join character-list segments with the separator `c` between them. -/
def joinWithChar (c : Char) : List (List Char) → List Char
  | [] => []
  | [x] => x
  | x :: y :: ys => x ++ c :: joinWithChar c (y :: ys)

/-- A parsed semantic version (`goversion.Version`): the original string,
the numeric `MAJOR.MINOR.PATCH` core and the dot-separated pre-release
identifiers. -/
structure GoVersion where
  original : String
  major : Nat
  minor : Nat
  patch : Nat
  pre : List String
deriving DecidableEq

/-- Modelled from the spec: the external semantic-version parser
(`goversion.NewVersion`), accepting `MAJOR.MINOR.PATCH[-PRERELEASE][+BUILD]`
with a numeric three-part core and non-empty dot-separated pre-release
identifiers; anything else is rejected. -/
def goVersionParse (s : String) : Except String GoVersion :=
  let cs := s.data
  let noBuild := (splitOnChar '+' cs).headD []
  let dashParts := splitOnChar '-' noBuild
  let core := dashParts.headD []
  let preIds : List (List Char) :=
    match dashParts with
    | [] => []
    | [_] => []
    | _ :: rest => splitOnChar '.' (joinWithChar '-' rest)
  match splitOnChar '.' core with
  | [a, b, c] =>
    if a.isEmpty || b.isEmpty || c.isEmpty
        || !a.all Char.isDigit || !b.all Char.isDigit || !c.all Char.isDigit
        || preIds.any List.isEmpty then
      .error ("Malformed version: " ++ s)
    else
      .ok { original := s
            major := digitsVal a
            minor := digitsVal b
            patch := digitsVal c
            pre := preIds.map String.mk }
  | _ => .error ("Malformed version: " ++ s)

/-- The comparison key of one pre-release identifier under semantic-version
precedence: numeric identifiers order below alphanumeric ones and among
themselves by value; alphanumeric identifiers order lexically. -/
def preIdKey (s : String) : Nat ×ₗ Nat ×ₗ String :=
  if s.data.all Char.isDigit then toLex (0, toLex (digitsVal s.data, s))
  else toLex (1, toLex (0, s))

/-- The comparison key of a whole version under semantic-version
precedence: the numeric core lexicographically, then a release (no
pre-release identifiers) above any pre-release, then the identifier list
lexicographically (a strict prefix orders below its extensions). -/
def versionKey (v : GoVersion) : Nat ×ₗ Nat ×ₗ Nat ×ₗ Nat ×ₗ List (Nat ×ₗ Nat ×ₗ String) :=
  toLex (v.major, toLex (v.minor, toLex (v.patch,
    toLex ((if v.pre.isEmpty then 1 else 0), v.pre.map preIdKey))))

/-- `a` precedes `b` in the descending presentation order: `a`'s version
key is at least `b`'s. -/
def vge (a b : GoVersion) : Prop := versionKey b ≤ versionKey a

instance : DecidableRel vge :=
  fun a b => inferInstanceAs (Decidable (versionKey b ≤ versionKey a))

instance : IsTotal GoVersion vge :=
  ⟨fun a b => le_total (versionKey b) (versionKey a)⟩

instance : IsTrans GoVersion vge :=
  ⟨fun _ _ _ h1 h2 => le_trans h2 h1⟩

/-- `sort.Sort (sort.Reverse versions)`: sort a version collection into
descending semantic-version order. -/
def sortDesc (l : List GoVersion) : List GoVersion := List.insertionSort vge l

/-- `list.VersionsList`: a map from engine type to its version collection,
modelled as an association list in insertion order. -/
abbrev VersionsList := List (String × List GoVersion)

/-- Go map read `res[k]`. -/
def mapGet (res : VersionsList) (k : String) : Option (List GoVersion) :=
  (res.find? (fun p => p.1 == k)).map (fun p => p.2)

/-- Go map write `res[k] = v`: replace the entry when the key is present,
otherwise add it. -/
def mapSet (res : VersionsList) (k : String) (v : List GoVersion) : VersionsList :=
  if res.any (fun p => p.1 == k) then
    res.map (fun p => if p.1 == k then (k, v) else p)
  else res ++ [(k, v)]

/-- `client.DatabaseEngine.Spec` (only its `Type` is read). -/
structure EngineSpec where
  type : String
deriving DecidableEq

/-- `client.DatabaseEngine.Status.AvailableVersions`: `engine` holds the
keys of the `Engine` version map (`none` models a nil map). -/
structure AvailableVersions where
  engine : Option (List String)
deriving DecidableEq

/-- `client.DatabaseEngine.Status`. -/
structure EngineStatus where
  availableVersions : Option AvailableVersions
deriving DecidableEq

/-- `client.DatabaseEngine` (`none` fields model nil pointers). -/
structure DatabaseEngine where
  spec : Option EngineSpec
  status : Option EngineStatus
deriving DecidableEq

/-- `list.VersionsConfig`. -/
structure VersionsConfig where
  kubernetesID : String
  type : String

/-- `list.Versions.checkIfSkip`. -/
def checkIfSkip (cfgType : String) (db : DatabaseEngine) : Bool :=
  match db.spec with
  | none => true
  | some sp =>
    if cfgType ≠ "" ∧ sp.type ≠ cfgType then true
    else
      match db.status with
      | none => true
      | some st =>
        match st.availableVersions with
        | none => true
        | some av => av.engine.isNone

/-- The version strings of a record's available-versions engine map (empty
when any link in the chain is nil). -/
def engineVersionKeys (db : DatabaseEngine) : List String :=
  match db.status with
  | none => []
  | some st =>
    match st.availableVersions with
    | none => []
    | some av => av.engine.getD []

/-- The inner loop of `list.Versions.parseVersions`: parse each version
string and append it to the record's bucket; the first parse error aborts
the whole resolution. -/
def appendVersions (k : String) (res : VersionsList) : List String → Except String VersionsList
  | [] => .ok res
  | s :: rest =>
    match goVersionParse s with
    | .error e => .error e
    | .ok v => appendVersions k (mapSet res k ((mapGet res k).getD [] ++ [v])) rest

/-- One iteration of the outer loop of `list.Versions.parseVersions`:
skip the record or ensure its bucket exists and parse its versions.  When
`checkIfSkip` is false the record's spec is present, so the `getD`
defaults are never taken. -/
def parseVersionsStep (cfgType : String) (res : VersionsList) (db : DatabaseEngine) :
    Except String VersionsList :=
  if checkIfSkip cfgType db then .ok res
  else
    let engineType := (db.spec.map EngineSpec.type).getD ""
    let res1 := if (mapGet res engineType).isSome then res else mapSet res engineType []
    appendVersions engineType res1 (engineVersionKeys db)

/-- The outer loop of `list.Versions.parseVersions` over the remaining
records. -/
def parseVersionsAux (cfgType : String) (res : VersionsList) :
    List DatabaseEngine → Except String VersionsList
  | [] => .ok res
  | db :: rest =>
    match parseVersionsStep cfgType res db with
    | .error e => .error e
    | .ok res1 => parseVersionsAux cfgType res1 rest

/-- `list.Versions.parseVersions`. -/
def parseVersions (cfgType : String) (items : List DatabaseEngine) : Except String VersionsList :=
  parseVersionsAux cfgType [] items

/-- `list.Versions.Run`.  `listEngines` models
`everestClient.ListDatabaseEngines`; a `none` item list models
`dbEngines.Items == nil`. -/
def Run (listEngines : String → Except String (Option (List DatabaseEngine)))
    (c : VersionsConfig) : Except String VersionsList :=
  match listEngines c.kubernetesID with
  | .error e => .error e
  | .ok none => .ok []
  | .ok (some items) => parseVersions c.type items

/-- The lines one engine-type entry contributes to the rendered output:
the three header lines, then the original strings of its (sorted)
versions. -/
def renderBlock (p : String × List GoVersion) : List String :=
  "-----" :: p.1 :: "-----" :: p.2.map GoVersion.original

/-- `list.VersionsList.String`.  Renders the catalog and, because
`sort.Sort` reorders each bucket's slice in place, also returns the
catalog as it stands after the call. -/
def VersionsList.render (v : VersionsList) : String × VersionsList :=
  let entries := v.map (fun p => (p.1, sortDesc p.2))
  let out := entries.foldl (fun acc p => acc ++ renderBlock p) []
  (String.intercalate "\n" out, entries)

end ListVersions

end Everest

open Everest

/-! ## Claims -/

/-- C5: for every Delete invocation with `force = false` where the operator
answers the confirmation prompt negatively, the deletion gate returns
without error and issues no delete request to the control-plane client;
the declined outcome is a normal success, not an error. -/
theorem delete_declined_is_success_without_call
    (client : String → String → Except String Unit) (m : Delete.MySQLConfig)
    (hforce : m.force = false) :
    Delete.Run (.ok false) client m = (.ok (), []) := by
  simp [Delete.Run, hforce]

theorem delete_declined_is_success_without_call_witness :
    Delete.Run (.ok false) (fun _ _ => .ok ())
      { name := "c1", kubernetesID := "k1", everestEndpoint := "", force := false }
      = (.ok (), []) :=
  delete_declined_is_success_without_call (fun _ _ => .ok ())
    { name := "c1", kubernetesID := "k1", everestEndpoint := "", force := false } rfl

/-- C1: whenever one of the CPU, memory or disk strings fails to parse
under the quantity grammar, the provision command returns an error that
wraps the parser's message under a prefix naming the failing field, and
issues no create call to the control-plane client. -/
theorem provision_parse_failure_names_field_and_sends_nothing
    (pq : String → Except String Provision.Quantity)
    (client : String → Provision.WireDatabaseCluster → Except String Unit)
    (m : Provision.MySQLConfig) :
    (∀ e, pq m.cpu = .error e →
      Provision.Run pq client m = (.error (wrapErr "cannot parse cpu" e), [])) ∧
    (∀ qc e, pq m.cpu = .ok qc → pq m.memory = .error e →
      Provision.Run pq client m = (.error (wrapErr "cannot parse memory" e), [])) ∧
    (∀ qc qm e, pq m.cpu = .ok qc → pq m.memory = .ok qm → pq m.disk = .error e →
      Provision.Run pq client m = (.error (wrapErr "cannot parse disk storage" e), [])) := by
  refine ⟨fun e h => ?_, fun qc e hc h => ?_, fun qc qm e hc hm h => ?_⟩ <;>
    simp [Provision.Run, Provision.prepareBody, *]

theorem provision_parse_failure_names_field_and_sends_nothing_witness :
    Provision.Run Provision.specQuantityParse (fun _ _ => .ok ())
      { name := "c1", kubernetesID := "k1", everestEndpoint := "", dbVersion := "latest",
        nodes := 3, cpu := "x2", memory := "4Gi", disk := "100Gi", externalAccess := false }
      = (.error (wrapErr "cannot parse cpu" "unable to parse quantity x2"), []) :=
  (provision_parse_failure_names_field_and_sends_nothing Provision.specQuantityParse
      (fun _ _ => .ok ())
      { name := "c1", kubernetesID := "k1", everestEndpoint := "", dbVersion := "latest",
        nodes := 3, cpu := "x2", memory := "4Gi", disk := "100Gi", externalAccess := false }).1
    "unable to parse quantity x2" (by decide)

/-- When `prepareBody` succeeds, `provision.MySQL.Run` issues exactly one
create call, carrying the built payload. -/
theorem provision_run_sends_prepared_body
    (pq : String → Except String Provision.Quantity)
    (client : String → Provision.WireDatabaseCluster → Except String Unit)
    (m : Provision.MySQLConfig) (body : Provision.WireDatabaseCluster)
    (h : Provision.prepareBody pq m = .ok body) :
    (Provision.Run pq client m).2 = [.createDBCluster m.kubernetesID body] := by
  unfold Provision.Run
  rw [h]
  rcases hcl : client m.kubernetesID body with e | u <;> simp [hcl]

/-- C3: whenever all three quantity strings parse, the payload builder
succeeds, and the translated wire payload's version field is the empty
string when the configured version is the literal `"latest"` and the
configured string verbatim otherwise. -/
theorem provision_latest_maps_to_empty_version
    (pq : String → Except String Provision.Quantity) (m : Provision.MySQLConfig)
    (qc qm qd : Provision.Quantity)
    (hc : pq m.cpu = .ok qc) (hm : pq m.memory = .ok qm) (hd : pq m.disk = .ok qd) :
    ∃ body, Provision.prepareBody pq m = .ok body ∧
      (m.dbVersion = "latest" → body.spec.engine.version = "") ∧
      (m.dbVersion ≠ "latest" → body.spec.engine.version = m.dbVersion) := by
  by_cases hx : m.externalAccess <;> by_cases hv : m.dbVersion = "latest" <;>
    simp only [Provision.prepareBody, Provision.convertPayload, hc, hm, hd, hx, hv,
      if_true, if_false, ite_true, ite_false, ne_eq, not_false_iff] <;>
    refine ⟨_, rfl, ?_, ?_⟩ <;> simp [hv]

theorem provision_latest_maps_to_empty_version_witness :
    (Provision.prepareBody Provision.specQuantityParse
      { name := "c1", kubernetesID := "k1", everestEndpoint := "", dbVersion := "latest",
        nodes := 3, cpu := "2", memory := "4Gi", disk := "100Gi", externalAccess := false }).map
      (fun b => b.spec.engine.version) = .ok "" := by
  obtain ⟨body, h, h1, -⟩ := provision_latest_maps_to_empty_version Provision.specQuantityParse
    { name := "c1", kubernetesID := "k1", everestEndpoint := "", dbVersion := "latest",
      nodes := 3, cpu := "2", memory := "4Gi", disk := "100Gi", externalAccess := false }
    ⟨2, ""⟩ ⟨4, "Gi"⟩ ⟨100, "Gi"⟩ (by decide) (by decide) (by decide)
  rw [h, Except.map, h1 rfl]

/-- C4 (amended): every payload the builder produces — and which `Run`
then sends as the single create call — carries the 32-bit truncation of
the configured node count identically in the engine's replica field and
the proxy's replica field; the builder does not enforce that this count is
positive. -/
theorem provision_replicas_applied_identically
    (pq : String → Except String Provision.Quantity)
    (client : String → Provision.WireDatabaseCluster → Except String Unit)
    (m : Provision.MySQLConfig) (body : Provision.WireDatabaseCluster)
    (h : Provision.prepareBody pq m = .ok body) :
    body.spec.engine.replicas = Provision.toInt32 m.nodes ∧
    body.spec.proxy.replicas = some body.spec.engine.replicas ∧
    (Provision.Run pq client m).2 = [.createDBCluster m.kubernetesID body] := by
  have hpb := h
  unfold Provision.prepareBody at h
  rcases h1 : pq m.cpu with e | qc <;> rw [h1] at h
  · exact absurd h (by simp)
  rcases h2 : pq m.memory with e | qm <;> rw [h2] at h
  · exact absurd h (by simp)
  rcases h3 : pq m.disk with e | qd <;> rw [h3] at h
  · exact absurd h (by simp)
  refine ⟨?_, ?_, provision_run_sends_prepared_body pq client m body hpb⟩ <;>
    by_cases hx : m.externalAccess <;>
      simp only [Provision.convertPayload, hx, if_true, if_false, ite_true, ite_false,
        Except.ok.injEq] at h <;> subst h <;> rfl

theorem provision_replicas_applied_identically_witness :
    (Provision.Run Provision.specQuantityParse (fun _ _ => .ok ())
      { name := "c1", kubernetesID := "k1", everestEndpoint := "", dbVersion := "latest",
        nodes := 3, cpu := "2", memory := "4Gi", disk := "100Gi", externalAccess := false }).2 =
      [.createDBCluster "k1"
        { name := "c1"
          spec :=
            { engine :=
                { type := "pxc", replicas := 3, version := ""
                  storage := { size := ⟨100, "Gi"⟩ }
                  resources := { cpu := ⟨2, ""⟩, memory := ⟨4, "Gi"⟩ } }
              proxy :=
                { type := "haproxy", replicas := some 3
                  expose := { type := "internal" } } } }] :=
  (provision_replicas_applied_identically Provision.specQuantityParse (fun _ _ => .ok ())
    { name := "c1", kubernetesID := "k1", everestEndpoint := "", dbVersion := "latest",
      nodes := 3, cpu := "2", memory := "4Gi", disk := "100Gi", externalAccess := false }
    _ (by decide)).2.2

/-- C2: for every successful credential reset, exactly one secret is
persisted; it carries the fixed name `everest-password`, lives in the
target namespace, is an opaque secret, and its data holds the single key
`password` mapping to the PBKDF2 derivation of the fresh plaintext with
the namespace UID as salt, 4096 iterations and 32 output bytes; whenever
that derivation differs from the plaintext's bytes the plaintext appears
nowhere in the persisted data, and the plaintext is returned only in the
response. -/
theorem reset_persists_only_derived_hash
    (getNs : String → Except String Password.NamespaceObj)
    (pw : String) (kdf : String → String → Nat → Nat → List Nat)
    (setS : Password.Secret → Option String) (cfg : Password.ResetConfig)
    (ns : Password.NamespaceObj) (resp : Password.ResetResponse)
    (hns : getNs cfg.targetNamespace = .ok ns)
    (hok : (Password.Run getNs pw kdf setS cfg).1 = .ok resp) :
    resp.password = pw ∧
    (Password.Run getNs pw kdf setS cfg).2 =
      [{ apiVersion := "v1", kind := "Secret", name := Password.passwordSecretName
         inNamespace := cfg.targetNamespace, secretType := "Opaque"
         data := [("password", kdf pw ns.uid 4096 32)] }] ∧
    (kdf pw ns.uid 4096 32 ≠ strBytes pw →
      ∀ s ∈ (Password.Run getNs pw kdf setS cfg).2, ∀ kv ∈ s.data, kv.2 ≠ strBytes pw) := by
  rcases hset : setS
      { apiVersion := "v1", kind := "Secret", name := Password.passwordSecretName
        inNamespace := cfg.targetNamespace, secretType := "Opaque"
        data := [("password", kdf pw ns.uid 4096 32)] } with _ | e <;>
    unfold Password.Run at hok ⊢ <;>
    rw [hns] at hok ⊢ <;>
    simp only [hset] at hok ⊢
  · rw [Except.ok.injEq] at hok
    subst hok
    refine ⟨rfl, by trivial, fun hneq s hs kv hkv => ?_⟩
    simp only [List.mem_singleton] at hs
    subst hs
    simp only [List.mem_singleton] at hkv
    subst hkv
    exact hneq
  · exact absurd hok (by simp)

theorem reset_persists_only_derived_hash_witness :
    (Password.Run (fun _ => .ok ⟨"uid-1"⟩) "pw" (fun _ _ _ _ => [1, 2, 3]) (fun _ => none)
      { kubeconfigPath := "", targetNamespace := "ns-1" }).2 =
      [{ apiVersion := "v1", kind := "Secret", name := Password.passwordSecretName
         inNamespace := "ns-1", secretType := "Opaque"
         data := [("password", [1, 2, 3])] }] :=
  (reset_persists_only_derived_hash (fun _ => .ok ⟨"uid-1"⟩) "pw" (fun _ _ _ _ => [1, 2, 3])
    (fun _ => none) { kubeconfigPath := "", targetNamespace := "ns-1" } ⟨"uid-1"⟩ ⟨"pw"⟩
    rfl rfl).2.1

/-- C4 counterexample: with a configured node count of 0 and valid
quantity strings the builder succeeds and `Run` sends the payload, whose
engine replica field is 0 — the claim's lower bound of 1 does not hold on
every sent payload. -/
theorem provision_replicas_zero_sent_counterexample :
    (Provision.Run Provision.specQuantityParse (fun _ _ => .ok ())
      { name := "c1", kubernetesID := "k1", everestEndpoint := "", dbVersion := "latest",
        nodes := 0, cpu := "2", memory := "4Gi", disk := "100Gi", externalAccess := false }).2 ≠
        [] ∧
    ((Provision.Run Provision.specQuantityParse (fun _ _ => .ok ())
      { name := "c1", kubernetesID := "k1", everestEndpoint := "", dbVersion := "latest",
        nodes := 0, cpu := "2", memory := "4Gi", disk := "100Gi",
        externalAccess := false }).2.all fun call =>
          match call with
          | .createDBCluster _ body => body.spec.engine.replicas == 0) = true := by
  decide

/-- C6: the skip filter drops every record without a specification, every
record whose engine type differs from a requested non-empty type filter,
and every record lacking a status, an available-versions block or an
engine-versions sub-block; a skipped record contributes nothing and causes
no error; with type filter "pxc" over a "pxc" and a "psmdb" record, the
catalog contains only the "pxc" bucket. -/
theorem versions_skip_filter
    (cfgType : String) (db : ListVersions.DatabaseEngine) (res : ListVersions.VersionsList) :
    (db.spec = none → ListVersions.checkIfSkip cfgType db = true) ∧
    (∀ sp, db.spec = some sp → cfgType ≠ "" → sp.type ≠ cfgType →
      ListVersions.checkIfSkip cfgType db = true) ∧
    (db.status = none → ListVersions.checkIfSkip cfgType db = true) ∧
    (∀ st, db.status = some st → st.availableVersions = none →
      ListVersions.checkIfSkip cfgType db = true) ∧
    (∀ st av, db.status = some st → st.availableVersions = some av → av.engine = none →
      ListVersions.checkIfSkip cfgType db = true) ∧
    (ListVersions.checkIfSkip cfgType db = true →
      ListVersions.parseVersionsStep cfgType res db = .ok res) ∧
    ListVersions.parseVersions "pxc"
      [{ spec := some { type := "pxc" }
         status := some { availableVersions := some { engine := some ["8.0.31"] } } },
       { spec := some { type := "psmdb" }
         status := some { availableVersions := some { engine := some ["6.0.2"] } } }] =
      .ok [("pxc", [{ original := "8.0.31", major := 8, minor := 0, patch := 31, pre := [] }])] := by
  refine ⟨?_, ?_, ?_, ?_, ?_, ?_, by decide⟩
  · intro h
    simp [ListVersions.checkIfSkip, h]
  · intro sp hsp hne hty
    simp [ListVersions.checkIfSkip, hsp, hne, hty]
  · intro h
    rcases hsp : db.spec with _ | sp
    · simp [ListVersions.checkIfSkip, hsp]
    · simp [ListVersions.checkIfSkip, hsp, h]
  · intro st hst hav
    rcases hsp : db.spec with _ | sp
    · simp [ListVersions.checkIfSkip, hsp]
    · simp [ListVersions.checkIfSkip, hsp, hst, hav]
  · intro st av hst hav hve
    rcases hsp : db.spec with _ | sp
    · simp [ListVersions.checkIfSkip, hsp]
    · simp [ListVersions.checkIfSkip, hsp, hst, hav, hve]
  · intro h
    simp [ListVersions.parseVersionsStep, h]

theorem versions_skip_filter_witness :
    ListVersions.checkIfSkip "pxc"
      { spec := some { type := "psmdb" }
        status := some { availableVersions := some { engine := some ["6.0.2"] } } } = true ∧
    ListVersions.parseVersions "pxc"
      [{ spec := some { type := "pxc" }
         status := some { availableVersions := some { engine := some ["8.0.31"] } } },
       { spec := some { type := "psmdb" }
         status := some { availableVersions := some { engine := some ["6.0.2"] } } }] =
      .ok [("pxc", [{ original := "8.0.31", major := 8, minor := 0, patch := 31, pre := [] }])] :=
  ⟨(versions_skip_filter "pxc"
      { spec := some { type := "psmdb" }
        status := some { availableVersions := some { engine := some ["6.0.2"] } } } []).2.1
      { type := "psmdb" } rfl (by decide) (by decide),
   (versions_skip_filter "pxc"
      { spec := some { type := "psmdb" }
        status := some { availableVersions := some { engine := some ["6.0.2"] } } } []).2.2.2.2.2.2⟩

/-- C10: a record with a specification and a status whose available-versions
engine map is non-nil but empty passes the skip filter (with no type
filter), creates an empty bucket for its engine type, and the rendered
output for that catalog is the header block for the type followed by zero
version lines. -/
theorem versions_empty_engine_map_empty_bucket
    (db : ListVersions.DatabaseEngine) (sp : ListVersions.EngineSpec)
    (st : ListVersions.EngineStatus) (av : ListVersions.AvailableVersions)
    (hsp : db.spec = some sp) (hst : db.status = some st)
    (hav : st.availableVersions = some av) (hve : av.engine = some []) :
    ListVersions.checkIfSkip "" db = false ∧
    ListVersions.parseVersions "" [db] = .ok [(sp.type, [])] ∧
    (ListVersions.VersionsList.render [(sp.type, [])]).1 =
      String.intercalate "\n" ["-----", sp.type, "-----"] := by
  have hskip : ListVersions.checkIfSkip "" db = false := by
    simp [ListVersions.checkIfSkip, hsp, hst, hav, hve]
  refine ⟨hskip, ?_, ?_⟩
  · simp [ListVersions.parseVersions, ListVersions.parseVersionsAux,
      ListVersions.parseVersionsStep, hskip, ListVersions.engineVersionKeys, hsp, hst, hav, hve,
      ListVersions.mapGet, ListVersions.mapSet, ListVersions.appendVersions]
  · simp [ListVersions.VersionsList.render, ListVersions.renderBlock, ListVersions.sortDesc,
      List.insertionSort]

theorem versions_empty_engine_map_empty_bucket_witness :
    ListVersions.checkIfSkip ""
      { spec := some { type := "pxc" }
        status := some { availableVersions := some { engine := some [] } } } = false ∧
    ListVersions.parseVersions ""
      [{ spec := some { type := "pxc" }
         status := some { availableVersions := some { engine := some [] } } }] =
      .ok [("pxc", [])] :=
  ⟨(versions_empty_engine_map_empty_bucket
      { spec := some { type := "pxc" }
        status := some { availableVersions := some { engine := some [] } } }
      { type := "pxc" } { availableVersions := some { engine := some [] } }
      { engine := some [] } rfl rfl rfl rfl).1,
   (versions_empty_engine_map_empty_bucket
      { spec := some { type := "pxc" }
        status := some { availableVersions := some { engine := some [] } } }
      { type := "pxc" } { availableVersions := some { engine := some [] } }
      { engine := some [] } rfl rfl rfl rfl).2.1⟩

/-- If the inner version loop succeeds, every version string of the record
parsed. -/
theorem appendVersions_ok_all_parse (k : String) (l : List String)
    (res out : ListVersions.VersionsList)
    (h : ListVersions.appendVersions k res l = .ok out) :
    ∀ s ∈ l, ∃ v, ListVersions.goVersionParse s = .ok v := by
  induction l generalizing res with
  | nil => intro s hs; cases hs
  | cons a rest ih =>
    unfold ListVersions.appendVersions at h
    split at h
    next e heq => exact absurd h (by simp)
    next v heq =>
      intro s hs
      rw [List.mem_cons] at hs
      rcases hs with rfl | hs
      · exact ⟨v, heq⟩
      · exact ih _ h s hs

/-- If the inner version loop fails, the error is the parse error of one
of the record's version strings. -/
theorem appendVersions_error_from_parse (k : String) (l : List String)
    (res : ListVersions.VersionsList) (e : String)
    (h : ListVersions.appendVersions k res l = .error e) :
    ∃ s ∈ l, ListVersions.goVersionParse s = .error e := by
  induction l generalizing res with
  | nil => unfold ListVersions.appendVersions at h; exact absurd h (by simp)
  | cons a rest ih =>
    unfold ListVersions.appendVersions at h
    split at h
    next e2 heq =>
      rw [Except.error.injEq] at h
      subst h
      exact ⟨a, List.mem_cons_self a rest, heq⟩
    next v heq =>
      obtain ⟨s, hs, hp⟩ := ih _ h
      exact ⟨s, List.mem_cons_of_mem a hs, hp⟩

/-- A failing outer-loop step comes from a surviving record and carries the
parse error of one of its version strings. -/
theorem parseVersionsStep_error (cfgType : String) (res : ListVersions.VersionsList)
    (db : ListVersions.DatabaseEngine) (e : String)
    (h : ListVersions.parseVersionsStep cfgType res db = .error e) :
    ListVersions.checkIfSkip cfgType db = false ∧
    ∃ s ∈ ListVersions.engineVersionKeys db, ListVersions.goVersionParse s = .error e := by
  unfold ListVersions.parseVersionsStep at h
  split at h
  next hskip => exact absurd h (by simp)
  next hskip =>
    rw [Bool.not_eq_true] at hskip
    exact ⟨hskip, appendVersions_error_from_parse _ _ _ _ h⟩

/-- A successful outer-loop step on a surviving record means every version
string of that record parsed. -/
theorem parseVersionsStep_ok_all_parse (cfgType : String) (res : ListVersions.VersionsList)
    (db : ListVersions.DatabaseEngine) (out : ListVersions.VersionsList)
    (h : ListVersions.parseVersionsStep cfgType res db = .ok out)
    (hskip : ListVersions.checkIfSkip cfgType db = false) :
    ∀ s ∈ ListVersions.engineVersionKeys db, ∃ v, ListVersions.goVersionParse s = .ok v := by
  unfold ListVersions.parseVersionsStep at h
  split at h
  next hs => rw [hskip] at hs; exact absurd hs (by simp)
  next hs => exact appendVersions_ok_all_parse _ _ _ _ h

/-- A failing resolution pass comes from a surviving record and carries the
parse error of one of its version strings. -/
theorem parseVersionsAux_error_from_parse (cfgType : String)
    (items : List ListVersions.DatabaseEngine) :
    ∀ res e, ListVersions.parseVersionsAux cfgType res items = .error e →
    ∃ db ∈ items, ListVersions.checkIfSkip cfgType db = false ∧
      ∃ s ∈ ListVersions.engineVersionKeys db, ListVersions.goVersionParse s = .error e := by
  induction items with
  | nil => intro res e h; unfold ListVersions.parseVersionsAux at h; exact absurd h (by simp)
  | cons db0 rest ih =>
    intro res e h
    unfold ListVersions.parseVersionsAux at h
    split at h
    next e2 heq =>
      rw [Except.error.injEq] at h
      subst h
      obtain ⟨hskip, s, hs, hp⟩ := parseVersionsStep_error _ _ _ _ heq
      exact ⟨db0, List.mem_cons_self db0 rest, hskip, s, hs, hp⟩
    next res1 heq =>
      obtain ⟨db2, hdb2, hskip, s, hs, hp⟩ := ih _ _ h
      exact ⟨db2, List.mem_cons_of_mem db0 hdb2, hskip, s, hs, hp⟩

/-- A successful resolution pass means every version string of every
surviving record parsed. -/
theorem parseVersionsAux_ok_all_parse (cfgType : String)
    (items : List ListVersions.DatabaseEngine) :
    ∀ res out, ListVersions.parseVersionsAux cfgType res items = .ok out →
    ∀ db ∈ items, ListVersions.checkIfSkip cfgType db = false →
    ∀ s ∈ ListVersions.engineVersionKeys db, ∃ v, ListVersions.goVersionParse s = .ok v := by
  induction items with
  | nil => intro res out h db hdb; cases hdb
  | cons db0 rest ih =>
    intro res out h db hdb hskip s hs
    unfold ListVersions.parseVersionsAux at h
    split at h
    next e2 heq => exact absurd h (by simp)
    next res1 heq =>
      rw [List.mem_cons] at hdb
      rcases hdb with rfl | hdb
      · exact parseVersionsStep_ok_all_parse _ _ _ _ heq hskip s hs
      · exact ih _ _ h db hdb hskip s hs

/-- C9: whenever the engine-record list contains a surviving record (one
the skip filter keeps) with a version string the semantic-version parser
rejects, the whole resolution fails: no catalog is produced, and the error
returned is the parse error of a version string of a surviving record. -/
theorem versions_unparsable_fails_resolution
    (cfgType : String) (items : List ListVersions.DatabaseEngine)
    (db : ListVersions.DatabaseEngine) (s e : String)
    (hdb : db ∈ items) (hskip : ListVersions.checkIfSkip cfgType db = false)
    (hs : s ∈ ListVersions.engineVersionKeys db)
    (herr : ListVersions.goVersionParse s = .error e) :
    ∃ e2, ListVersions.parseVersions cfgType items = .error e2 ∧
      ∃ db2 ∈ items, ListVersions.checkIfSkip cfgType db2 = false ∧
        ∃ s2 ∈ ListVersions.engineVersionKeys db2,
          ListVersions.goVersionParse s2 = .error e2 := by
  rcases hres : ListVersions.parseVersions cfgType items with e2 | out
  · exact ⟨e2, rfl, parseVersionsAux_error_from_parse cfgType items [] e2 hres⟩
  · obtain ⟨v, hv⟩ := parseVersionsAux_ok_all_parse cfgType items [] out hres db hdb hskip s hs
    rw [herr] at hv
    exact absurd hv (by simp)

theorem versions_unparsable_fails_resolution_witness :
    (ListVersions.parseVersions ""
      [{ spec := some { type := "pxc" }
         status := some { availableVersions := some { engine := some ["banana"] } } }]).isOk =
      false := by
  obtain ⟨e2, he, -⟩ := versions_unparsable_fails_resolution ""
    [{ spec := some { type := "pxc" }
       status := some { availableVersions := some { engine := some ["banana"] } } }]
    { spec := some { type := "pxc" }
      status := some { availableVersions := some { engine := some ["banana"] } } }
    "banana" "Malformed version: banana"
    (List.mem_cons_self _ _) (by decide) (by decide) (by decide)
  rw [he]
  rfl

/-- Folding list-append over a list equals the flattened map. -/
theorem foldl_append_eq_join {α β : Type} (f : β → List α) (l : List β) (acc : List α) :
    l.foldl (fun a b => a ++ f b) acc = acc ++ (l.map f).flatten := by
  induction l generalizing acc with
  | nil => simp
  | cons b rest ih => simp [ih, List.append_assoc]

/-- C7 (amended): the rendered output is the newline-join, with no trailing
separator, of one block per engine type in catalog order; each block
consists of the three header lines `-----`, the engine type, `-----`
(three joined elements, not one concatenated header line), followed by the
bucket's version strings one per line; the versions of each block are the
bucket sorted into descending semantic-version order (a permutation of the
bucket). -/
theorem versions_render_blocks_sorted (v : ListVersions.VersionsList) :
    (ListVersions.VersionsList.render v).1 =
      String.intercalate "\n"
        (List.flatten (v.map (fun p => ListVersions.renderBlock (p.1, ListVersions.sortDesc p.2)))) ∧
    ∀ p ∈ v, (ListVersions.sortDesc p.2).Perm p.2 ∧
      List.Sorted ListVersions.vge (ListVersions.sortDesc p.2) := by
  constructor
  · simp only [ListVersions.VersionsList.render]
    rw [foldl_append_eq_join]
    simp only [List.map_map, List.nil_append]
    rfl
  · intro p _
    exact ⟨List.perm_insertionSort _ _, List.sorted_insertionSort _ _⟩

theorem versions_render_blocks_sorted_witness :
    (ListVersions.VersionsList.render
      [("pxc", [{ original := "1.0.0", major := 1, minor := 0, patch := 0, pre := [] },
                { original := "2.1.0", major := 2, minor := 1, patch := 0, pre := [] },
                { original := "1.9.9", major := 1, minor := 9, patch := 9, pre := [] }])]).1 =
      "-----\npxc\n-----\n2.1.0\n1.9.9\n1.0.0" := by
  rw [(versions_render_blocks_sorted
    [("pxc", [{ original := "1.0.0", major := 1, minor := 0, patch := 0, pre := [] },
              { original := "2.1.0", major := 2, minor := 1, patch := 0, pre := [] },
              { original := "1.9.9", major := 1, minor := 9, patch := 9, pre := [] }])]).1]
  decide

/-- C7 counterexample: a one-bucket catalog renders its header as the three
lines `-----`, `pxc`, `-----` joined by newlines, not as the single line
`-----pxc-----` the claim states. -/
theorem versions_render_header_counterexample :
    (ListVersions.VersionsList.render
      [("pxc", [{ original := "1.0.0", major := 1, minor := 0, patch := 0, pre := [] }])]).1 =
      "-----\npxc\n-----\n1.0.0" ∧
    "-----\npxc\n-----\n1.0.0" ≠ "-----pxc-----\n1.0.0" := by
  constructor
  · decide
  · decide

/-- C8 (amended): rendering keeps every engine-type key in its place and
keeps the versions of every bucket as a multiset, but re-orders each
bucket in place into descending semantic-version order (the in-place
`sort.Sort`), so the catalog after the call holds, bucket for bucket, a
permutation of what it held before. -/
theorem versions_render_preserves_contents (v : ListVersions.VersionsList) :
    ((ListVersions.VersionsList.render v).2).map Prod.fst = v.map Prod.fst ∧
    List.Forall₂ (fun p q => p.1 = q.1 ∧ List.Perm p.2 q.2)
      (ListVersions.VersionsList.render v).2 v := by
  constructor
  · simp [ListVersions.VersionsList.render, List.map_map, Function.comp]
  · simp only [ListVersions.VersionsList.render]
    rw [List.forall₂_map_left_iff, List.forall₂_same]
    intro p _
    exact ⟨rfl, List.perm_insertionSort _ _⟩

theorem versions_render_preserves_contents_witness :
    ((ListVersions.VersionsList.render
      [("pxc", [{ original := "1.0.0", major := 1, minor := 0, patch := 0, pre := [] },
                { original := "2.1.0", major := 2, minor := 1, patch := 0, pre := [] }])]).2).map
        Prod.fst = ["pxc"] := by
  rw [(versions_render_preserves_contents
    [("pxc", [{ original := "1.0.0", major := 1, minor := 0, patch := 0, pre := [] },
              { original := "2.1.0", major := 2, minor := 1, patch := 0, pre := [] }])]).1]
  decide

/-- C8 counterexample: rendering a catalog whose bucket is not already in
descending order changes the catalog — the bucket comes back re-ordered,
not in its original order. -/
theorem versions_render_mutates_counterexample :
    (ListVersions.VersionsList.render
      [("pxc", [{ original := "1.0.0", major := 1, minor := 0, patch := 0, pre := [] },
                { original := "2.1.0", major := 2, minor := 1, patch := 0, pre := [] }])]).2 ≠
      [("pxc", [{ original := "1.0.0", major := 1, minor := 0, patch := 0, pre := [] },
                { original := "2.1.0", major := 2, minor := 1, patch := 0, pre := [] }])] := by
  decide
